import Mathlib

/-!
Verification of the NBT (Named Binary Tag) deserializer in src/de.rs.

The decoder walks a byte stream and drives a construction protocol (a serde
visitor).  We embed it shallowly: the input is a list of byte values, the
visitor is instantiated at a universal value-tree builder (`Value`), and each
method of the Rust decoder becomes a Lean function from bytes to a result
paired with the unconsumed remainder.  The byte-reader primitives (raw.rs)
and the error enum (error.rs) are collaborators of this core that are not
part of de.rs; they are modelled from the specification of their interface.

The three mutually recursive pieces of the decoder (generic tag dispatch,
the compound-entry loop, the list-element loop) are written with an explicit
fuel parameter to make them structurally recursive and executable; the Rust
code has no such parameter (its recursion is bounded only by the call stack),
and every theorem below either holds for all fuel values or supplies fuel
that is provably sufficient for the input at hand.  The declared length of
a sequence is an i32 read from the wire; the element counter is an i32 that
the source increments with a plain addition, which wraps two's-complement
under the release-profile semantics, and the embedding wraps it the same
way.  usize is modelled as 64 bits wide.
-/

/-- A byte stream: each entry is intended to lie in 0..255. -/
abbrev Bytes := List Nat

/-- Modelled from the spec: the error taxonomy of the decoder (error.rs is
not under src/).  `IoError` stands for the wrapped I/O failures (truncated
input, decompression corruption, invalid encoding). -/
inductive Error where
  | NoRootCompound
  | InvalidTypeId (tag : Nat)
  | TagMismatch (actual expected : Nat)
  | NonBooleanByte (b : Int)
  | IoError
  deriving Repr, DecidableEq

/-- Modelled from the spec: the three ownership variants of a decoded string
reference (raw.rs `Reference`): a borrow into the source, a copy via the
scratch buffer, or a fully owned allocation. -/
inductive RefKind where
  | borrowed
  | copied
  | owned
  deriving Repr, DecidableEq

/-- The value tree built by a universal visitor: it records exactly which
visitor method the decoder invoked (`visit_i8`, `visit_borrowed_str`,
`visit_str`, `visit_string`, `visit_seq`, `visit_map`, ...).  Floats are
recorded as their raw big-endian bit patterns, strings as their byte
contents. -/
inductive Value where
  | vI8 (v : Int)
  | vI16 (v : Int)
  | vI32 (v : Int)
  | vI64 (v : Int)
  | vF32 (bits : Nat)
  | vF64 (bits : Nat)
  | vBorrowedStr (s : Bytes)
  | vStr (s : Bytes)
  | vString (s : Bytes)
  | vBool (b : Bool)
  | vSeq (elems : List Value)
  | vMap (entries : List (Value × Value))
  deriving Repr

/-- A decode step: a result or an error, together with the bytes that remain
unconsumed when the step finishes or fails. -/
abbrev DecodeResult (α : Type) := (Except Error α) × Bytes

/-- Map a function over the success value of a decode step. -/
def mapOut (f : α → β) (p : DecodeResult α) : DecodeResult β :=
  (p.1.map f, p.2)

/-- Two's-complement reading of a w-bit unsigned value. -/
def toSigned (w : Nat) (v : Nat) : Int :=
  if v < 2 ^ (w - 1) then (v : Int) else (v : Int) - 2 ^ w

/-- The `as u8` cast applied to an i8 value. -/
def i8ToU8 (v : Int) : Nat := (v % 256).toNat

/-- Reduction of an integer into the i32 range by two's-complement
wrapping: the result of an overflowing i32 addition in release builds. -/
def wrapI32 (v : Int) : Int := (v + 2 ^ 31) % 2 ^ 32 - 2 ^ 31

/-- Modelled from the spec: big-endian accumulation of `n` bytes into an
unsigned value; fails on short input. -/
def readBE : Nat → Nat → Bytes → DecodeResult Nat
  | 0, acc, s => (.ok acc, s)
  | _ + 1, _, [] => (.error .IoError, [])
  | n + 1, acc, b :: rest => readBE n (acc * 256 + b) rest

/-- Modelled from the spec: raw.rs `read_bare_byte`, one signed byte. -/
def read_bare_byte (s : Bytes) : DecodeResult Int :=
  match s with
  | [] => (.error .IoError, [])
  | b :: rest => (.ok (toSigned 8 b), rest)

/-- Modelled from the spec: raw.rs `read_bare_short`, 2-byte big-endian
signed integer. -/
def read_bare_short (s : Bytes) : DecodeResult Int :=
  mapOut (fun v => toSigned 16 v) (readBE 2 0 s)

/-- Modelled from the spec: raw.rs `read_bare_int`, 4-byte big-endian signed
integer. -/
def read_bare_int (s : Bytes) : DecodeResult Int :=
  mapOut (fun v => toSigned 32 v) (readBE 4 0 s)

/-- Modelled from the spec: raw.rs `read_bare_long`, 8-byte big-endian
signed integer. -/
def read_bare_long (s : Bytes) : DecodeResult Int :=
  mapOut (fun v => toSigned 64 v) (readBE 8 0 s)

/-- Modelled from the spec: raw.rs `read_bare_float`, 4-byte IEEE-754 value
kept as its raw bit pattern. -/
def read_bare_float (s : Bytes) : DecodeResult Nat :=
  readBE 4 0 s

/-- Modelled from the spec: raw.rs `read_bare_double`, 8-byte IEEE-754 value
kept as its raw bit pattern. -/
def read_bare_double (s : Bytes) : DecodeResult Nat :=
  readBE 8 0 s

/-- Modelled from the spec: raw.rs `read_bare_string(optional scratch)`.
Reads a 2-byte length, then that many content bytes.  Whether a scratch-
assisted read comes back borrowed or copied depends on reader internals
outside this core; that choice is abstracted by the parameter `k`.  A read
with no scratch buffer yields an unconditionally owned result. -/
def read_bare_string (k : RefKind) (scratch : Bool) (s : Bytes) :
    DecodeResult (RefKind × Bytes) :=
  match readBE 2 0 s with
  | (.error e, r) => (.error e, r)
  | (.ok len, r) =>
    if len ≤ r.length then
      (.ok (if scratch then k else .owned, r.take len), r.drop len)
    else
      (.error .IoError, r.drop len)

/-- `Reference::into_owned`: the contents, forgetting the ownership
variant. -/
def intoOwned (r : RefKind × Bytes) : Bytes := r.2

/-- Modelled from the spec: raw.rs `emit_next_header(optional scratch)`,
used only at top level: reads one tag byte and, unless the tag is the End
marker, the root name that follows it. -/
def emit_next_header (k : RefKind) (s : Bytes) : DecodeResult (Nat × Bytes) :=
  match read_bare_byte s with
  | (.error e, r) => (.error e, r)
  | (.ok tag, r) =>
    if tag = 0 then (.ok (0, []), r)
    else
      match read_bare_string k true r with
      | (.error e, r2) => (.error e, r2)
      | (.ok name, r2) => (.ok (i8ToU8 tag, intoOwned name), r2)

/-- The visitor call selected for a decoded string reference
(de.rs lines 300-304): borrowed strings go to `visit_borrowed_str`, copied
ones to `visit_str`, owned ones to `visit_string`. -/
def mkStrValue : RefKind → Bytes → Value
  | .borrowed, s => .vBorrowedStr s
  | .copied, s => .vStr s
  | .owned, s => .vString s

/-- The tag-0x08 arm of `InnerDecoder::deserialize_any`: read a bare string
through the scratch buffer and forward whichever reference variant the
reader produced to the matching visitor call. -/
def readStringValue (k : RefKind) (s : Bytes) : DecodeResult Value :=
  match read_bare_string k true s with
  | (.error e, r) => (.error e, r)
  | (.ok ref, r) => (.ok (mkStrValue ref.1 ref.2), r)

/-- `MapDecoder::next_key_seed` (de.rs lines 157-178): read one tag byte; on
the End marker 0x00 report no more entries; otherwise remember the tag for
the coming value and decode the key by running the key seed against an inner
decoder whose tag is forced to 0x08 (String). -/
def MapDecoder.next_key_seed (k : RefKind) (s : Bytes) :
    DecodeResult (Option (Value × Nat)) :=
  match read_bare_byte s with
  | (.error e, r) => (.error e, r)
  | (.ok tag, r) =>
    if tag = 0 then (.ok none, r)
    else
      match readStringValue k r with
      | (.error e, r2) => (.error e, r2)
      | (.ok key, r2) => (.ok (some (key, i8ToU8 tag)), r2)

/-- `SeqDecoder::list` (de.rs lines 207-216): read the shared element tag
and then the 4-byte element count. -/
def SeqDecoder.list (s : Bytes) : DecodeResult (Nat × Int) :=
  match read_bare_byte s with
  | (.error e, r) => (.error e, r)
  | (.ok tag, r) =>
    match read_bare_int r with
    | (.error e, r2) => (.error e, r2)
    | (.ok length, r2) => (.ok (i8ToU8 tag, length), r2)

/-- `SeqDecoder::byte_array` (de.rs lines 218-226): read only the 4-byte
element count; the element tag is implicitly 0x01. -/
def SeqDecoder.byte_array (s : Bytes) : DecodeResult (Nat × Int) :=
  mapOut (fun length => (0x01, length)) (read_bare_int s)

/-- `SeqDecoder::int_array` (de.rs lines 228-236): read only the 4-byte
element count; the element tag is implicitly 0x03. -/
def SeqDecoder.int_array (s : Bytes) : DecodeResult (Nat × Int) :=
  mapOut (fun length => (0x03, length)) (read_bare_int s)

/-- `SeqDecoder::long_array` (de.rs lines 238-246): read only the 4-byte
element count; the element tag is implicitly 0x04. -/
def SeqDecoder.long_array (s : Bytes) : DecodeResult (Nat × Int) :=
  mapOut (fun length => (0x04, length)) (read_bare_int s)

/-- `SeqDecoder::size_hint` (de.rs lines 272-274): `Some(self.length as
usize)`, with usize modelled as 64 bits. -/
def SeqDecoder.size_hint (length : Int) : Option Nat :=
  some ((length % (2 ^ 64)).toNat)

mutual

/-- `InnerDecoder::deserialize_any` (de.rs lines 286-311), instantiated at
the universal visitor: dispatch on the pending tag, reading one scalar,
string, sequence, or compound, or failing with `InvalidTypeId` on a tag
outside 0x01..0x0c. -/
def InnerDecoder.deserialize_any : Nat → RefKind → Nat → Bytes → DecodeResult Value
  | 0, _, _, s => (.error .IoError, s)
  | fuel + 1, k, tag, s =>
    if tag = 0x01 then mapOut Value.vI8 (read_bare_byte s)
    else if tag = 0x02 then mapOut Value.vI16 (read_bare_short s)
    else if tag = 0x03 then mapOut Value.vI32 (read_bare_int s)
    else if tag = 0x04 then mapOut Value.vI64 (read_bare_long s)
    else if tag = 0x05 then mapOut Value.vF32 (read_bare_float s)
    else if tag = 0x06 then mapOut Value.vF64 (read_bare_double s)
    else if tag = 0x07 then
      match SeqDecoder.byte_array s with
      | (.error e, r) => (.error e, r)
      | (.ok td, r) =>
        mapOut Value.vSeq (SeqDecoder.elements fuel k td.1 td.2 0 r)
    else if tag = 0x08 then readStringValue k s
    else if tag = 0x09 then
      match SeqDecoder.list s with
      | (.error e, r) => (.error e, r)
      | (.ok td, r) =>
        mapOut Value.vSeq (SeqDecoder.elements fuel k td.1 td.2 0 r)
    else if tag = 0x0a then
      mapOut Value.vMap (MapDecoder.entries fuel k s)
    else if tag = 0x0b then
      match SeqDecoder.int_array s with
      | (.error e, r) => (.error e, r)
      | (.ok td, r) =>
        mapOut Value.vSeq (SeqDecoder.elements fuel k td.1 td.2 0 r)
    else if tag = 0x0c then
      match SeqDecoder.long_array s with
      | (.error e, r) => (.error e, r)
      | (.ok td, r) =>
        mapOut Value.vSeq (SeqDecoder.elements fuel k td.1 td.2 0 r)
    else (.error (.InvalidTypeId tag), s)

/-- The universal visitor's `visit_map` loop over `MapDecoder` (de.rs lines
154-193): repeatedly obtain a key via `next_key_seed` and then its value via
`next_value_seed` (an inner decode at the remembered tag), until
`next_key_seed` reports the End marker. -/
def MapDecoder.entries : Nat → RefKind → Bytes → DecodeResult (List (Value × Value))
  | 0, _, s => (.error .IoError, s)
  | fuel + 1, k, s =>
    match MapDecoder.next_key_seed k s with
    | (.error e, r) => (.error e, r)
    | (.ok none, r) => (.ok [], r)
    | (.ok (some (key, vtag)), r) =>
      match InnerDecoder.deserialize_any fuel k vtag r with
      | (.error e, r2) => (.error e, r2)
      | (.ok v, r2) =>
        mapOut (fun es => (key, v) :: es) (MapDecoder.entries fuel k r2)

/-- The universal visitor's `visit_seq` loop over
`SeqDecoder::next_element_seed` (de.rs lines 252-269): report done exactly
when the i32 element counter equals the declared length, otherwise decode
one element at the shared tag and increment the counter; the increment
`self.current += 1` wraps two's-complement as in release builds. -/
def SeqDecoder.elements : Nat → RefKind → Nat → Int → Int → Bytes → DecodeResult (List Value)
  | 0, _, _, _, _, s => (.error .IoError, s)
  | fuel + 1, k, tag, length, current, s =>
    if current = length then (.ok [], s)
    else
      match InnerDecoder.deserialize_any fuel k tag s with
      | (.error e, r) => (.error e, r)
      | (.ok v, r) =>
        mapOut (fun vs => v :: vs)
          (SeqDecoder.elements fuel k tag length (wrapI32 (current + 1)) r)

end

/-- `InnerDecoder::deserialize_bool` (de.rs lines 314-330): require tag
0x01, read one byte, accept exactly 0 and 1; any other tag fails with
`TagMismatch(tag, 0x01)` before reading anything. -/
def InnerDecoder.deserialize_bool (tag : Nat) (s : Bytes) : DecodeResult Value :=
  if tag = 0x01 then
    match read_bare_byte s with
    | (.error e, r) => (.error e, r)
    | (.ok v, r) =>
      if v = 0 then (.ok (.vBool false), r)
      else if v = 1 then (.ok (.vBool true), r)
      else (.error (.NonBooleanByte v), r)
  else (.error (.TagMismatch tag 0x01), s)

/-- `InnerDecoder::deserialize_string` (de.rs lines 363-375): require tag
0x08, read the string with no scratch buffer, and hand the visitor an owned
string via `into_owned`; any other tag fails with `TagMismatch(tag, 0x08)`
before reading anything. -/
def InnerDecoder.deserialize_string (k : RefKind) (tag : Nat) (s : Bytes) :
    DecodeResult Value :=
  if tag = 0x08 then
    match read_bare_string k false s with
    | (.error e, r) => (.error e, r)
    | (.ok ref, r) => (.ok (.vString (intoOwned ref)), r)
  else (.error (.TagMismatch tag 0x08), s)

/-- The top-level `Decoder::deserialize_any` (de.rs lines 87-94): the outer
decoder refuses every non-map request with `NoRootCompound`, reading
nothing. -/
def Decoder.deserialize_any (s : Bytes) : DecodeResult Value :=
  (.error .NoRootCompound, s)

/-- The top-level `Decoder::deserialize_map` (de.rs lines 123-134): read the
optional (tag, name) header, discard the name, and require tag 0x0a; on
success run the compound loop, otherwise fail with `NoRootCompound`.  The
fuel supplied to the loop is one more than the bytes that remain, which is
sufficient for every input the loop can consume. -/
def Decoder.deserialize_map (k : RefKind) (s : Bytes) : DecodeResult Value :=
  match emit_next_header k s with
  | (.error e, r) => (.error e, r)
  | (.ok h, r) =>
    if h.1 = 0x0a then
      mapOut Value.vMap (MapDecoder.entries (r.length + 1) k r)
    else (.error .NoRootCompound, r)

/-- `Decoder::deserialize_struct` (de.rs lines 96-106) delegates to
`deserialize_map`. -/
def Decoder.deserialize_struct (k : RefKind) (s : Bytes) : DecodeResult Value :=
  Decoder.deserialize_map k s

/-- `from_slice` (de.rs lines 16-24): decode a map target and return the
unconsumed remainder of the slice alongside the value. -/
def from_slice (k : RefKind) (s : Bytes) : Except Error (Bytes × Value) :=
  match Decoder.deserialize_map k s with
  | (.ok v, r) => .ok (r, v)
  | (.error e, _) => .error e

/-- `from_reader` (de.rs lines 30-37): decode a map target from a stream. -/
def from_reader (k : RefKind) (s : Bytes) : Except Error Value :=
  (Decoder.deserialize_map k s).1

/-- `from_gzip_reader` (de.rs lines 43-50): the gzip adapter is transparent
at the byte-reader level, so the argument is the decompressed stream. -/
def from_gzip_reader (k : RefKind) (s : Bytes) : Except Error Value :=
  from_reader k s

/-- `from_zlib_reader` (de.rs lines 56-63): the zlib adapter is transparent
at the byte-reader level, so the argument is the decompressed stream. -/
def from_zlib_reader (k : RefKind) (s : Bytes) : Except Error Value :=
  from_reader k s

/-- The big-endian value of four bytes. -/
def be32 (a b c d : Nat) : Nat := ((a * 256 + b) * 256 + c) * 256 + d

/-- The big-endian value of eight bytes. -/
def be64 (a b c d e f g h : Nat) : Nat :=
  ((((((a * 256 + b) * 256 + c) * 256 + d) * 256 + e) * 256 + f) * 256 + g) * 256 + h

/-- The wire bytes of a compound whose single entry (when n is positive) is
an empty-named nested compound, n levels deep: nesting witness inputs. -/
def nestedBody : Nat → Bytes
  | 0 => [0x00]
  | n + 1 => 0x0a :: 0x00 :: 0x00 :: (nestedBody n ++ [0x00])

/-- The entry list produced by decoding `nestedBody n`. -/
def nestedEntries (k : RefKind) : Nat → List (Value × Value)
  | 0 => []
  | n + 1 => [(mkStrValue k [], .vMap (nestedEntries k n))]

/-- A whole top-level input holding `nestedBody n`: root tag 0x0a and an
empty root name. -/
def nestedInput (n : Nat) : Bytes := 0x0a :: 0x00 :: 0x00 :: nestedBody n

/-! Helper lemmas shared by the claim theorems below. -/

/-- The compound-entry loop stops as soon as it reads the End marker 0x00,
leaving the following bytes untouched. -/
theorem entries_end_marker (fuel : Nat) (k : RefKind) (rest : Bytes) :
    MapDecoder.entries (fuel + 1) k (0x00 :: rest) = (.ok [], rest) := by
  simp [MapDecoder.entries, MapDecoder.next_key_seed, read_bare_byte, toSigned]

/-- A nonzero byte reads back as a nonzero i8. -/
theorem toSigned8_ne_zero {b : Nat} (hb : b < 256) (h0 : b ≠ 0) :
    toSigned 8 b ≠ 0 := by
  simp only [toSigned, show 2 ^ (8 - 1) = 128 from rfl, show ((2 : Int) ^ 8) = 256 from rfl]
  split <;> omega

/-- A byte other than 0 and 1 reads back as an i8 other than 0 and 1. -/
theorem toSigned8_ne_one {b : Nat} (hb : b < 256) (h1 : b ≠ 1) :
    toSigned 8 b ≠ 1 := by
  simp only [toSigned, show 2 ^ (8 - 1) = 128 from rfl, show ((2 : Int) ^ 8) = 256 from rfl]
  split <;> omega

/-- Casting a byte through i8 and back through u8 is the identity. -/
theorem i8ToU8_toSigned {b : Nat} (hb : b < 256) : i8ToU8 (toSigned 8 b) = b := by
  simp only [i8ToU8, toSigned, show 2 ^ (8 - 1) = 128 from rfl,
    show ((2 : Int) ^ 8) = 256 from rfl]
  split <;> omega

/-- Generic dispatch on any tag outside 0x01..0x0c fails with
`InvalidTypeId` without consuming input. -/
theorem deserialize_any_invalid (fuel : Nat) (k : RefKind) (tag : Nat) (s : Bytes)
    (h : ¬(1 ≤ tag ∧ tag ≤ 12)) :
    InnerDecoder.deserialize_any (fuel + 1) k tag s = (.error (.InvalidTypeId tag), s) := by
  have h1 : tag ≠ 1 := by omega
  have h2 : tag ≠ 2 := by omega
  have h3 : tag ≠ 3 := by omega
  have h4 : tag ≠ 4 := by omega
  have h5 : tag ≠ 5 := by omega
  have h6 : tag ≠ 6 := by omega
  have h7 : tag ≠ 7 := by omega
  have h8 : tag ≠ 8 := by omega
  have h9 : tag ≠ 9 := by omega
  have h10 : tag ≠ 10 := by omega
  have h11 : tag ≠ 11 := by omega
  have h12 : tag ≠ 12 := by omega
  simp [InnerDecoder.deserialize_any, h1, h2, h3, h4, h5, h6, h7, h8, h9, h10, h11, h12]

/-- The wrapped counter always lies in the i32 range. -/
theorem wrapI32_mem (v : Int) : -(2 ^ 31) ≤ wrapI32 v ∧ wrapI32 v < 2 ^ 31 := by
  simp only [wrapI32]
  omega

/-- One unfolding of the element loop when the counter has not reached the
declared length: one element is decoded and the counter wraps forward. -/
theorem elements_step (fuel : Nat) (k : RefKind) (tag : Nat)
    (length current : Int) (s : Bytes) (hc : current ≠ length) :
    SeqDecoder.elements (fuel + 1) k tag length current s =
      match InnerDecoder.deserialize_any fuel k tag s with
      | (.error e, r) => (.error e, r)
      | (.ok v, r) =>
        mapOut (fun vs => v :: vs)
          (SeqDecoder.elements fuel k tag length (wrapI32 (current + 1)) r) := by
  simp only [SeqDecoder.elements, if_neg hc]

/-- Whenever the element loop reports done by count, the number of decoded
elements is exactly the distance from the starting counter to the declared
length along the wrapping i32 increment: (length - current) mod 2^32. -/
theorem elements_done_count (fuel : Nat) :
    ∀ (k : RefKind) (tag : Nat) (length current : Int) (s : Bytes)
      (vs : List Value),
      -(2 ^ 31) ≤ length → length < 2 ^ 31 →
      -(2 ^ 31) ≤ current → current < 2 ^ 31 →
      (SeqDecoder.elements fuel k tag length current s).1 = .ok vs →
      (vs.length : Int) = (length - current) % 2 ^ 32 := by
  induction fuel with
  | zero =>
    intro k tag length current s vs h1 h2 h3 h4 hok
    simp [SeqDecoder.elements] at hok
  | succ f ih =>
    intro k tag length current s vs h1 h2 h3 h4 hok
    by_cases hc : current = length
    · subst hc
      simp [SeqDecoder.elements] at hok
      subst hok
      simp
    · rw [elements_step f k tag length current s hc] at hok
      cases hd : InnerDecoder.deserialize_any f k tag s with
      | mk out r =>
        rw [hd] at hok
        cases out with
        | error e => simp at hok
        | ok v =>
          simp only [mapOut] at hok
          cases htail : (SeqDecoder.elements f k tag length
              (wrapI32 (current + 1)) r).1 with
          | error e => rw [htail] at hok; simp [Except.map] at hok
          | ok vs2 =>
            rw [htail] at hok
            simp only [Except.map, Except.ok.injEq] at hok
            subst hok
            have hw := wrapI32_mem (current + 1)
            have h5 := ih k tag length (wrapI32 (current + 1)) r vs2
              h1 h2 hw.1 hw.2 htail
            simp only [wrapI32] at h5
            simp only [List.length_cons]
            push_cast at h5 ⊢
            omega

/-- Decoding a run of n one-byte elements under tag 0x01 when the wrapped
distance from the counter to the declared length is exactly n: the loop
consumes all n bytes and reports done by count. -/
theorem elements_replicate (n : Nat) :
    ∀ (fuel : Nat) (length current : Int), n + 1 ≤ fuel →
      -(2 ^ 31) ≤ current → current < 2 ^ 31 →
      -(2 ^ 31) ≤ length → length < 2 ^ 31 →
      (length - current) % 2 ^ 32 = n →
      SeqDecoder.elements fuel .borrowed 0x01 length current
          (List.replicate n 7) =
        (.ok (List.replicate n (Value.vI8 7)), []) := by
  induction n with
  | zero =>
    intro fuel length current hfuel h1 h2 h3 h4 hmod
    obtain ⟨f, rfl⟩ : ∃ f, fuel = f + 1 := ⟨fuel - 1, by omega⟩
    have hc : current = length := by omega
    subst hc
    simp [SeqDecoder.elements]
  | succ m ih =>
    intro fuel length current hfuel h1 h2 h3 h4 hmod
    obtain ⟨f2, rfl⟩ : ∃ f2, fuel = f2 + 1 + 1 := ⟨fuel - 2, by omega⟩
    have hc : current ≠ length := by omega
    have hw := wrapI32_mem (current + 1)
    have hstep := ih (f2 + 1) length (wrapI32 (current + 1)) (by omega)
      hw.1 hw.2 h3 h4 (by simp only [wrapI32]; omega)
    have hany : InnerDecoder.deserialize_any (f2 + 1) .borrowed 0x01
        (7 :: List.replicate m 7) = (.ok (.vI8 7), List.replicate m 7) := by
      simp [InnerDecoder.deserialize_any, read_bare_byte, mapOut, Except.map,
        toSigned]
    simp only [List.replicate_succ]
    rw [elements_step (f2 + 1) .borrowed 0x01 length current
      (7 :: List.replicate m 7) hc, hany]
    simp [hstep, mapOut, Except.map, List.replicate_succ]

/-- Reading a compound-entry header whose key is the empty string: the tag
byte is remembered and the two zero bytes decode to an empty key. -/
theorem next_key_on_entry (k : RefKind) (t : Nat) (rest : Bytes)
    (ht : t ≠ 0) (hlt : t < 256) :
    MapDecoder.next_key_seed k (t :: 0x00 :: 0x00 :: rest) =
      (.ok (some (mkStrValue k [], t)), rest) := by
  simp [MapDecoder.next_key_seed, read_bare_byte, readStringValue, read_bare_string,
    readBE, toSigned8_ne_zero hlt ht, i8ToU8_toSigned hlt]

/-- One unfolding of the entry loop after a successful `next_key_seed`: the
value is decoded at the remembered tag, then the loop continues. -/
theorem entries_step (fuel : Nat) (k : RefKind) (s : Bytes) (key : Value)
    (vtag : Nat) (r : Bytes)
    (h : MapDecoder.next_key_seed k s = (.ok (some (key, vtag)), r)) :
    MapDecoder.entries (fuel + 1) k s =
      match InnerDecoder.deserialize_any fuel k vtag r with
      | (.error e, r2) => (.error e, r2)
      | (.ok v, r2) =>
        mapOut (fun es => (key, v) :: es) (MapDecoder.entries fuel k r2) := by
  simp only [MapDecoder.entries, h]

/-- Generic dispatch at the compound tag runs the entry loop and wraps the
result as a map value. -/
theorem any_compound (fuel : Nat) (k : RefKind) (s : Bytes) :
    InnerDecoder.deserialize_any (fuel + 1) k 0x0a s =
      mapOut Value.vMap (MapDecoder.entries fuel k s) := by
  simp [InnerDecoder.deserialize_any]

/-- The byte length of the nested-compound test input. -/
theorem nestedBody_length (n : Nat) : (nestedBody n).length = 4 * n + 1 := by
  induction n with
  | zero => simp [nestedBody]
  | succ n ih => simp [nestedBody, ih]; omega

/-- Decoding `nestedBody n` with sufficient fuel yields the nested entry
list and stops exactly at the end of the body. -/
theorem entries_nested (n : Nat) : ∀ fuel k rest, 2 * n + 1 ≤ fuel →
    MapDecoder.entries fuel k (nestedBody n ++ rest) =
      (.ok (nestedEntries k n), rest) := by
  induction n with
  | zero =>
    intro fuel k rest hf
    obtain ⟨f, rfl⟩ : ∃ f, fuel = f + 1 := ⟨fuel - 1, by omega⟩
    simpa [nestedBody, nestedEntries] using entries_end_marker f k rest
  | succ n ih =>
    intro fuel k rest hf
    obtain ⟨f, rfl⟩ : ∃ f, fuel = f + 1 + 1 := ⟨fuel - 2, by omega⟩
    have hshape : nestedBody (n + 1) ++ rest =
        0x0a :: 0x00 :: 0x00 :: (nestedBody n ++ (0x00 :: rest)) := by
      simp [nestedBody]
    have hIH := ih f k (0x00 :: rest) (by omega)
    have hend := entries_end_marker f k rest
    rw [hshape,
      entries_step (f + 1) k _ (mkStrValue k []) 0x0a (nestedBody n ++ 0x00 :: rest)
        (next_key_on_entry k 0x0a (nestedBody n ++ 0x00 :: rest) (by omega) (by omega)),
      any_compound, hIH]
    simp [mapOut, Except.map, hend, nestedEntries]

/-- A top-level decode of the depth-n nested compound succeeds for every n,
returning the nested value tree and consuming the whole input. -/
theorem deserialize_map_nested (k : RefKind) (n : Nat) :
    Decoder.deserialize_map k (nestedInput n) =
      (.ok (.vMap (nestedEntries k n)), []) := by
  have hb : MapDecoder.entries ((nestedBody n).length + 1) k (nestedBody n ++ []) =
      (.ok (nestedEntries k n), []) :=
    entries_nested n _ k [] (by rw [nestedBody_length]; omega)
  rw [List.append_nil] at hb
  simp [Decoder.deserialize_map, nestedInput, emit_next_header, read_bare_byte,
    toSigned, read_bare_string, readBE, i8ToU8, intoOwned, mapOut, Except.map, hb]

/-! The claim theorems. -/

/-- Claim C1: every top-level decode (from slice, stream, gzip stream, or
zlib stream) first reads one optional (tag, name) header, discards the name,
and requires the tag to equal 0x0a; any other tag fails with
`NoRootCompound` and the decoder performs no reads beyond the header read
(the remaining bytes are exactly those left after the header); a top-level
request for anything but a map fails the same way without reading at all. -/
theorem c1_root_rejection (k : RefKind) (s : Bytes) (tag : Nat)
    (name rest : Bytes)
    (hh : emit_next_header k s = (.ok (tag, name), rest)) (ht : tag ≠ 0x0a) :
    Decoder.deserialize_map k s = (.error .NoRootCompound, rest) ∧
    from_slice k s = .error .NoRootCompound ∧
    from_reader k s = .error .NoRootCompound ∧
    from_gzip_reader k s = .error .NoRootCompound ∧
    from_zlib_reader k s = .error .NoRootCompound ∧
    Decoder.deserialize_any s = (.error .NoRootCompound, s) := by
  have h1 : Decoder.deserialize_map k s = (.error .NoRootCompound, rest) := by
    simp [Decoder.deserialize_map, hh, ht]
  refine ⟨h1, ?_, ?_, ?_, ?_, rfl⟩ <;>
    simp [from_slice, from_reader, from_gzip_reader, from_zlib_reader, h1]

/-- Witness for C1: a root tag 0x03 (Int) with an empty name is rejected. -/
theorem c1_root_rejection_witness :
    Decoder.deserialize_map .borrowed [0x03, 0x00, 0x00] =
      (.error .NoRootCompound, []) ∧
    from_slice .borrowed [0x03, 0x00, 0x00] = .error .NoRootCompound := by
  have h := c1_root_rejection .borrowed [0x03, 0x00, 0x00] 3 [] [] rfl (by decide)
  exact ⟨h.1, h.2.1⟩

/-- Claim C2: on a nonzero entry tag byte b the compound decoder remembers b
as the pending value tag and decodes the key through the tag-0x08 string
path regardless of b (no validation that b was 0x08); the tag-0x08 inner
decode is exactly the bare-string read; and the remembered tag is then used
to decode the entry's value. -/
theorem c2_key_forced_to_string :
    (∀ k b rest, b < 256 → b ≠ 0 →
      MapDecoder.next_key_seed k (b :: rest) =
        mapOut (fun v => some (v, b)) (readStringValue k rest)) ∧
    (∀ fuel k s,
      InnerDecoder.deserialize_any (fuel + 1) k 0x08 s = readStringValue k s) ∧
    (∀ fuel k s key vtag r,
      MapDecoder.next_key_seed k s = (.ok (some (key, vtag)), r) →
      MapDecoder.entries (fuel + 1) k s =
        match InnerDecoder.deserialize_any fuel k vtag r with
        | (.error e, r2) => (.error e, r2)
        | (.ok v, r2) =>
          mapOut (fun es => (key, v) :: es) (MapDecoder.entries fuel k r2)) := by
  refine ⟨?_, ?_, ?_⟩
  · intro k b rest hb hb0
    have hz : toSigned 8 b ≠ 0 := toSigned8_ne_zero hb hb0
    have hu : i8ToU8 (toSigned 8 b) = b := i8ToU8_toSigned hb
    cases hr : readStringValue k rest with
    | mk out r2 =>
      cases out <;>
        simp [MapDecoder.next_key_seed, read_bare_byte, hz, hu, hr, mapOut,
          Except.map]
  · intro fuel k s
    simp [InnerDecoder.deserialize_any]
  · intro fuel k s key vtag r hk
    exact entries_step fuel k s key vtag r hk

/-- Witness for C2: entry tag 0x05 (Float) is remembered for the value while
the key is decoded as a string. -/
theorem c2_key_forced_to_string_witness :
    MapDecoder.next_key_seed .borrowed [0x05, 0x00, 0x00] =
      mapOut (fun v => some (v, 5)) (readStringValue .borrowed [0x00, 0x00]) ∧
    InnerDecoder.deserialize_any 1 .borrowed 0x08 [] =
      readStringValue .borrowed [] ∧
    MapDecoder.entries 1 .borrowed [0x05, 0x00, 0x00] =
      match InnerDecoder.deserialize_any 0 .borrowed 5 [] with
      | (.error e, r2) => (.error e, r2)
      | (.ok v, r2) =>
        mapOut (fun es => (.vBorrowedStr [], v) :: es)
          (MapDecoder.entries 0 .borrowed r2) := by
  refine ⟨c2_key_forced_to_string.1 .borrowed 5 [0x00, 0x00] (by decide) (by decide),
    by simpa using c2_key_forced_to_string.2.1 0 .borrowed [], ?_⟩
  have h := c2_key_forced_to_string.2.2 0 .borrowed [0x05, 0x00, 0x00]
    (.vBorrowedStr []) 5 [] rfl
  simpa using h

/-- Claim C3: a tag byte 0x00 terminates the compound, reporting no more
entries and reading nothing further; a compound consisting only of the End
marker decodes to the empty map, at the inner dispatch level and for a whole
top-level decode alike. -/
theorem c3_compound_end_marker :
    (∀ fuel k rest,
      MapDecoder.entries (fuel + 1) k (0x00 :: rest) = (.ok [], rest)) ∧
    (∀ fuel k rest,
      InnerDecoder.deserialize_any (fuel + 1 + 1) k 0x0a (0x00 :: rest) =
        (.ok (.vMap []), rest)) ∧
    (∀ k rest,
      Decoder.deserialize_map k (0x0a :: 0x00 :: 0x00 :: 0x00 :: rest) =
        (.ok (.vMap []), rest)) := by
  refine ⟨fun fuel k rest => entries_end_marker fuel k rest, ?_, ?_⟩
  · intro fuel k rest
    rw [any_compound, entries_end_marker]
    rfl
  · intro k rest
    have hend := entries_end_marker (rest.length + 1) k rest
    simp [Decoder.deserialize_map, emit_next_header, read_bare_byte, toSigned,
      read_bare_string, readBE, i8ToU8, intoOwned, mapOut, Except.map, hend]

/-- Claim C4: a boolean request against tag 0x01 reads one byte, mapping 0
to false, 1 to true, and any other byte value b to `NonBooleanByte(b)`; a
boolean request against any other tag t fails with `TagMismatch(t, 0x01)`
and consumes nothing. -/
theorem c4_bool_decoding :
    (∀ rest, InnerDecoder.deserialize_bool 0x01 (0x00 :: rest) =
      (.ok (.vBool false), rest)) ∧
    (∀ rest, InnerDecoder.deserialize_bool 0x01 (0x01 :: rest) =
      (.ok (.vBool true), rest)) ∧
    (∀ b rest, b < 256 → b ≠ 0 → b ≠ 1 →
      InnerDecoder.deserialize_bool 0x01 (b :: rest) =
        (.error (.NonBooleanByte (toSigned 8 b)), rest)) ∧
    (∀ tag s, tag ≠ 0x01 →
      InnerDecoder.deserialize_bool tag s =
        (.error (.TagMismatch tag 0x01), s)) := by
  refine ⟨?_, ?_, ?_, ?_⟩
  · intro rest
    simp [InnerDecoder.deserialize_bool, read_bare_byte, toSigned]
  · intro rest
    simp [InnerDecoder.deserialize_bool, read_bare_byte, toSigned]
  · intro b rest hb h0 h1
    simp [InnerDecoder.deserialize_bool, read_bare_byte,
      toSigned8_ne_zero hb h0, toSigned8_ne_one hb h1]
  · intro tag s ht
    simp [InnerDecoder.deserialize_bool, ht]

/-- Witness for C4: byte 7 under tag 0x01 yields NonBooleanByte(7); tag 0x03
yields TagMismatch(3, 1) without consuming the pending bytes. -/
theorem c4_bool_decoding_witness :
    InnerDecoder.deserialize_bool 0x01 [7, 9] =
      (.error (.NonBooleanByte 7), [9]) ∧
    InnerDecoder.deserialize_bool 0x03 [7, 9] =
      (.error (.TagMismatch 3 1), [7, 9]) := by
  have h3 := c4_bool_decoding.2.2.1 7 [9] (by decide) (by decide) (by decide)
  have h4 := c4_bool_decoding.2.2.2 3 [7, 9] (by decide)
  refine ⟨?_, h4⟩
  simpa [toSigned] using h3

/-- Claim C5: an explicit owned-string request against tag 0x08 reads the
string with no scratch buffer and reports an unconditionally owned string;
against any other tag t it fails with `TagMismatch(t, 0x08)` reading
nothing.  A generic request on tag 0x08 forwards exactly the reference
variant the reader produced: borrowed to `visit_borrowed_str`, copied to
`visit_str`, owned to `visit_string` (the three `mkStrValue` shapes). -/
theorem c5_string_ownership :
    (∀ k kind str s rest,
      read_bare_string k false s = (.ok (kind, str), rest) →
      InnerDecoder.deserialize_string k 0x08 s = (.ok (.vString str), rest)) ∧
    (∀ k tag s, tag ≠ 0x08 →
      InnerDecoder.deserialize_string k tag s =
        (.error (.TagMismatch tag 0x08), s)) ∧
    (∀ fuel k kind str s rest,
      read_bare_string k true s = (.ok (kind, str), rest) →
      InnerDecoder.deserialize_any (fuel + 1) k 0x08 s =
        (.ok (mkStrValue kind str), rest)) := by
  refine ⟨?_, ?_, ?_⟩
  · intro k kind str s rest h
    simp [InnerDecoder.deserialize_string, h, intoOwned]
  · intro k tag s ht
    simp [InnerDecoder.deserialize_string, ht]
  · intro fuel k kind str s rest h
    simp [InnerDecoder.deserialize_any, readStringValue, h]

/-- Witness for C5: the empty string read without scratch comes back owned;
tag 0x02 mismatches; with scratch each reader variant is forwarded as-is. -/
theorem c5_string_ownership_witness :
    InnerDecoder.deserialize_string .borrowed 0x08 [0x00, 0x00] =
      (.ok (.vString []), []) ∧
    InnerDecoder.deserialize_string .borrowed 0x02 [0x00, 0x00] =
      (.error (.TagMismatch 2 8), [0x00, 0x00]) ∧
    InnerDecoder.deserialize_any 1 .borrowed 0x08 [0x00, 0x00] =
      (.ok (.vBorrowedStr []), []) ∧
    InnerDecoder.deserialize_any 1 .copied 0x08 [0x00, 0x00] =
      (.ok (.vStr []), []) := by
  refine ⟨c5_string_ownership.1 .borrowed .owned [] [0x00, 0x00] [] rfl,
    c5_string_ownership.2.1 .borrowed 2 [0x00, 0x00] (by decide), ?_, ?_⟩
  · have h := c5_string_ownership.2.2 0 .borrowed .borrowed [] [0x00, 0x00] [] rfl
    simpa [mkStrValue] using h
  · have h := c5_string_ownership.2.2 0 .copied .copied [] [0x00, 0x00] [] rfl
    simpa [mkStrValue] using h

/-- Claim C6: a list constructor consumes exactly one tag byte plus a
4-byte length, and a list declared with element count 0 yields no elements,
consuming exactly those 5 bytes, whatever the declared element tag. -/
theorem c6_empty_list :
    (∀ t a b c d rest, SeqDecoder.list (t :: a :: b :: c :: d :: rest) =
      (.ok (i8ToU8 (toSigned 8 t), toSigned 32 (be32 a b c d)), rest)) ∧
    (∀ fuel k t rest,
      InnerDecoder.deserialize_any (fuel + 1 + 1) k 0x09
          (t :: 0x00 :: 0x00 :: 0x00 :: 0x00 :: rest) =
        (.ok (.vSeq []), rest)) := by
  constructor
  · intro t a b c d rest
    simp [SeqDecoder.list, read_bare_byte, read_bare_int, readBE, mapOut,
      Except.map, be32]
  · intro fuel k t rest
    simp [InnerDecoder.deserialize_any, SeqDecoder.list, SeqDecoder.elements,
      read_bare_byte, read_bare_int, readBE, mapOut, Except.map, toSigned]

/-- Claim C7: the byte-array, int-array, and long-array constructors read
only a 4-byte length (no tag byte) and fix the element tags to 0x01, 0x03,
0x04 respectively, so their elements decode as the corresponding primitive;
the declared length is exposed as the size hint. -/
theorem c7_arrays_implicit_tags :
    (∀ a b c d rest, SeqDecoder.byte_array (a :: b :: c :: d :: rest) =
        (.ok (0x01, toSigned 32 (be32 a b c d)), rest)) ∧
    (∀ a b c d rest, SeqDecoder.int_array (a :: b :: c :: d :: rest) =
        (.ok (0x03, toSigned 32 (be32 a b c d)), rest)) ∧
    (∀ a b c d rest, SeqDecoder.long_array (a :: b :: c :: d :: rest) =
        (.ok (0x04, toSigned 32 (be32 a b c d)), rest)) ∧
    (∀ fuel k b rest,
      InnerDecoder.deserialize_any (fuel + 1 + 1 + 1) k 0x07
          (0x00 :: 0x00 :: 0x00 :: 0x01 :: b :: rest) =
        (.ok (.vSeq [.vI8 (toSigned 8 b)]), rest)) ∧
    (∀ fuel k a b c d rest,
      InnerDecoder.deserialize_any (fuel + 1 + 1 + 1) k 0x0b
          (0x00 :: 0x00 :: 0x00 :: 0x01 :: a :: b :: c :: d :: rest) =
        (.ok (.vSeq [.vI32 (toSigned 32 (be32 a b c d))]), rest)) ∧
    (∀ fuel k a b c d e f g h rest,
      InnerDecoder.deserialize_any (fuel + 1 + 1 + 1) k 0x0c
          (0x00 :: 0x00 :: 0x00 :: 0x01 :: a :: b :: c :: d :: e :: f :: g :: h :: rest) =
        (.ok (.vSeq [.vI64 (toSigned 64 (be64 a b c d e f g h))]), rest)) ∧
    (∀ length : Int, 0 ≤ length → length < 2 ^ 63 →
      SeqDecoder.size_hint length = some length.toNat) := by
  refine ⟨?_, ?_, ?_, ?_, ?_, ?_, ?_⟩
  · intro a b c d rest
    simp [SeqDecoder.byte_array, read_bare_int, readBE, mapOut, Except.map, be32]
  · intro a b c d rest
    simp [SeqDecoder.int_array, read_bare_int, readBE, mapOut, Except.map, be32]
  · intro a b c d rest
    simp [SeqDecoder.long_array, read_bare_int, readBE, mapOut, Except.map, be32]
  · intro fuel k b rest
    simp [InnerDecoder.deserialize_any, SeqDecoder.byte_array, SeqDecoder.elements,
      read_bare_byte, read_bare_int, readBE, mapOut, Except.map, toSigned, wrapI32]
  · intro fuel k a b c d rest
    simp [InnerDecoder.deserialize_any, SeqDecoder.int_array, SeqDecoder.elements,
      read_bare_byte, read_bare_int, readBE, mapOut, Except.map, toSigned, be32,
      wrapI32]
  · intro fuel k a b c d e f g h rest
    simp [InnerDecoder.deserialize_any, SeqDecoder.long_array, SeqDecoder.elements,
      read_bare_byte, read_bare_int, read_bare_long, readBE, mapOut, Except.map,
      toSigned, be64, wrapI32]
  · intro length h0 h1
    simp only [SeqDecoder.size_hint]
    congr 1
    omega

/-- Witness for C7: a length-1 byte array with element 9 and the size hint
of a nonnegative length. -/
theorem c7_arrays_implicit_tags_witness :
    SeqDecoder.byte_array [0x00, 0x00, 0x00, 0x02, 9] =
      (.ok (1, 2), [9]) ∧
    SeqDecoder.size_hint 5 = some 5 := by
  constructor
  · have h := c7_arrays_implicit_tags.1 0x00 0x00 0x00 0x02 [9]
    simpa [be32, toSigned] using h
  · have h := c7_arrays_implicit_tags.2.2.2.2.2.2 5 (by norm_num) (by norm_num)
    simpa using h

/-- Claim C8: generic dispatch on a tag outside the recognized range
0x01..0x0c fails with `InvalidTypeId(tag)` consuming nothing; inside a
compound such an entry tag makes the decode fail with `InvalidTypeId` right
after the key has been decoded. -/
theorem c8_invalid_type_id :
    (∀ fuel k tag s, ¬(1 ≤ tag ∧ tag ≤ 12) →
      InnerDecoder.deserialize_any (fuel + 1) k tag s =
        (.error (.InvalidTypeId tag), s)) ∧
    (∀ fuel k t rest, 13 ≤ t → t < 256 →
      MapDecoder.entries (fuel + 1 + 1) k (t :: 0x00 :: 0x00 :: rest) =
        (.error (.InvalidTypeId t), rest)) := by
  refine ⟨fun fuel k tag s h => deserialize_any_invalid fuel k tag s h, ?_⟩
  intro fuel k t rest h13 h256
  rw [entries_step (fuel + 1) k _ (mkStrValue k []) t rest
      (next_key_on_entry k t rest (by omega) h256),
    deserialize_any_invalid fuel k t rest (by omega)]

/-- Witness for C8: tag byte 13 is rejected directly and inside a
compound entry. -/
theorem c8_invalid_type_id_witness :
    InnerDecoder.deserialize_any 1 .borrowed 13 [5] =
      (.error (.InvalidTypeId 13), [5]) ∧
    MapDecoder.entries 2 .borrowed [13, 0x00, 0x00, 5] =
      (.error (.InvalidTypeId 13), [5]) := by
  constructor
  · simpa using c8_invalid_type_id.1 0 .borrowed 13 [5] (by omega)
  · simpa using c8_invalid_type_id.2 0 .borrowed 13 [5] (by omega) (by omega)

/-- Claim C9 (amended): recursive descent over nested compounds is not
guarded by any depth counter and there is no depth-exceeded error in the
error taxonomy; decoding succeeds for every structural nesting depth n, the
recursion being bounded only by the resources of the host. -/
theorem c9_unbounded_nesting (k : RefKind) (n : Nat) :
    Decoder.deserialize_map k (nestedInput n) =
      (.ok (.vMap (nestedEntries k n)), []) :=
  deserialize_map_nested k n

/-- Counterexample to claim C9 as stated: an input whose compounds nest
100000 levels deep decodes successfully, rather than failing with any
depth-exceeded style error at some smaller bound. -/
theorem c9_depth_guard_refuted :
    Decoder.deserialize_map .borrowed (nestedInput 100000) =
      (.ok (.vMap (nestedEntries .borrowed 100000)), []) :=
  deserialize_map_nested .borrowed 100000

/-- Counterexample to claim C10 as stated: with declared length -2^31 and a
stream of 2^31 one-byte elements, the wrapping i32 counter climbs to
i32::MAX, wraps to -2^31, and equals the declared length, so the element
iterator DOES report the sequence as done by count, consuming the whole
input. -/
theorem c10_done_by_count_refuted :
    SeqDecoder.elements (2 ^ 31 + 1) .borrowed 0x01 (-(2 ^ 31 : Int)) 0
        (List.replicate (2 ^ 31) 7) =
      (.ok (List.replicate (2 ^ 31) (Value.vI8 7)), []) :=
  elements_replicate (2 ^ 31) (2 ^ 31 + 1) (-(2 ^ 31)) 0 (by norm_num)
    (by norm_num) (by norm_num) (by norm_num) (by norm_num) (by omega)

/-- Claim C10 (amended): with a negative declared length, the element
iterator reports done by count only when the wrapping i32 counter (starting
at 0, incremented by 1 per element) exactly equals the declared length,
which first happens after exactly 2^32 + length decoded elements — at least
2^31 of them — and never earlier; the size hint casts the negative length
to an unsigned size, a value above 2^63. -/
theorem c10_wrapped_counter (length : Int)
    (hlo : -(2 ^ 31) ≤ length) (hneg : length < 0) :
    (∀ fuel (k : RefKind) (tag : Nat) (s : Bytes) (vs : List Value),
      (SeqDecoder.elements fuel k tag length 0 s).1 = .ok vs →
      (vs.length : Int) = 2 ^ 32 + length ∧ 2 ^ 31 ≤ vs.length) ∧
    SeqDecoder.size_hint length = some ((2 ^ 64 + length).toNat) ∧
    2 ^ 63 < (2 ^ 64 + length).toNat := by
  refine ⟨?_, ?_, by omega⟩
  · intro fuel k tag s vs hok
    have h := elements_done_count fuel k tag length 0 s vs hlo (by omega)
      (by norm_num) (by norm_num) hok
    constructor <;> omega
  · simp only [SeqDecoder.size_hint]
    congr 1
    omega

/-- Witness for C10: at declared length -2^31 the done-by-count run of the
counterexample has exactly 2^32 - 2^31 elements, and the size hint is
2^64 - 2^31. -/
theorem c10_wrapped_counter_witness :
    ((List.replicate (2 ^ 31) (Value.vI8 7)).length : Int) =
      2 ^ 32 + -(2 ^ 31) ∧
    2 ^ 31 ≤ (List.replicate (2 ^ 31) (Value.vI8 7)).length ∧
    SeqDecoder.size_hint (-(2 ^ 31)) =
      some ((2 ^ 64 + -(2 ^ 31) : Int).toNat) ∧
    2 ^ 63 < ((2 ^ 64 + -(2 ^ 31) : Int)).toNat := by
  have h := c10_wrapped_counter (-(2 ^ 31)) (by norm_num) (by norm_num)
  have h1 := h.1 (2 ^ 31 + 1) .borrowed 0x01 (List.replicate (2 ^ 31) 7)
    (List.replicate (2 ^ 31) (Value.vI8 7))
    (by
      rw [elements_replicate (2 ^ 31) (2 ^ 31 + 1) (-(2 ^ 31)) 0 (by norm_num)
        (by norm_num) (by norm_num) (by norm_num) (by norm_num) (by omega)])
  exact ⟨h1.1, h1.2, h.2.1, h.2.2⟩
